import Mathlib

/-!  Verification of the yt2tandoor pipeline (`pipeline.py`, `bot.py`).

Shallow embedding conventions: Python strings are `List Char`, Python floats
are `ℚ` (exact decimal semantics; binary-float representation effects are out
of scope), dictionaries with fixed keys are structures, and fallible calls to
external collaborators are oracles supplied as explicit data.  Character
classes (`\d`, `\s`, `[a-zA-Z]`, `str.lower`) are modelled over the ASCII
range, which covers every literal the program compares against.
-/

/-- Whitespace stripped by Python `str.strip()` and matched by the regex
class `\s` (ASCII range). -/
def pyIsSpace (c : Char) : Bool :=
  c = ' ' || c = '\t' || c = '\n' || c = '\r' || c = '\x0b' || c = '\x0c'

/-- Python `str.lstrip()`. -/
def pyStripL (l : List Char) : List Char := l.dropWhile pyIsSpace

/-- Python `str.rstrip()`. -/
def pyStripR (l : List Char) : List Char := (l.reverse.dropWhile pyIsSpace).reverse

/-- Python `str.strip()`. -/
def pyStrip (l : List Char) : List Char := pyStripR (pyStripL l)

/-- Python `str.lower()` (ASCII range). -/
def pyLower (l : List Char) : List Char := l.map Char.toLower

/-- Numeric value of a run of ASCII digits, as read by `int(...)` on a
regex group. -/
def digitsToNat (l : List Char) : Nat := l.foldl (fun n c => 10 * n + (c.toNat - 48)) 0

/-- Python `s.split(sep)` for a single-character separator. -/
def splitOnChar (sep : Char) : List Char → List (List Char)
  | [] => [[]]
  | c :: rest =>
    if c = sep then [] :: splitOnChar sep rest
    else
      match splitOnChar sep rest with
      | [] => [[c]]
      | p :: ps => (c :: p) :: ps

/-- Python `sep in s` (substring containment test). -/
def occursB (sep : List Char) : List Char → Bool
  | [] => sep.isPrefixOf []
  | c :: rest => sep.isPrefixOf (c :: rest) || occursB sep rest

/-- Python `s.split(sep, 1)`: the text before and after the first occurrence
of `sep`; `none` when `sep` does not occur. -/
def splitFirst (sep : List Char) : List Char → Option (List Char × List Char)
  | [] => if sep.isPrefixOf [] then some ([], []) else none
  | c :: rest =>
    if sep.isPrefixOf (c :: rest) then some ([], (c :: rest).drop sep.length)
    else (splitFirst sep rest).map (fun p => (c :: p.1, p.2))

/-- Python `text.split("## ")`, specialised to the three-character section
marker used by `_split_instruction_sections` (leftmost, non-overlapping). -/
def splitHH : List Char → List (List Char)
  | '#' :: '#' :: ' ' :: rest => [] :: splitHH rest
  | c :: rest =>
    match splitHH rest with
    | [] => [[c]]
    | p :: ps => (c :: p) :: ps
  | [] => [[]]

/-- The first maximal digit run in a string, as found by
`re.search(r"(\d+)", s)`; `none` when the string has no digit. -/
def firstNum : List Char → Option Nat
  | [] => none
  | c :: rest =>
    if c.isDigit then some (digitsToNat ((c :: rest).takeWhile Char.isDigit))
    else firstNum rest

/-- Model of Python `float(s)` restricted to unsigned decimal literals
(`digits`, `digits.digits`, `.digits`, `digits.`); the other forms Python
accepts (signs, exponents, `inf`/`nan`, underscores) never arise from the
regex groups this program parses and are treated as parse failures. -/
def pyFloat? (l0 : List Char) : Option ℚ :=
  let l := pyStrip l0
  let ip := l.takeWhile Char.isDigit
  match l.dropWhile Char.isDigit with
  | [] => if ip = [] then none else some (digitsToNat ip)
  | '.' :: fr =>
    if fr.all Char.isDigit && !(ip = [] && fr = []) then
      some ((digitsToNat ip : ℚ) + (digitsToNat fr : ℚ) / (10 : ℚ) ^ fr.length)
    else none
  | _ => none

/-- `_parse_amount` on a string containing no `'-'`: the fraction branch and
the plain-decimal branch.  (`num`/`den` are stripped by `float` itself, which
`pyFloat?` models by stripping its argument.) -/
def parse_amount_nodash (l : List Char) : ℚ :=
  let s := pyStrip l
  if '/' ∈ s then
    match splitOnChar '/' s with
    | [num, den] =>
      match pyFloat? num, pyFloat? den with
      | some a, some b => if b = 0 then 0 else a / b
      | _, _ => 0
    | _ => 0
  else (pyFloat? s).getD 0

/-- `_parse_amount` from `pipeline.py`: ranges resolve to the maximum of
their parts.  Each part of `s.split("-")` contains no `'-'`, so the
recursive call in the source reduces to the no-dash case. -/
def parse_amount (l : List Char) : ℚ :=
  let s := pyStrip l
  if '-' ∈ s then
    match (splitOnChar '-' s).map parse_amount_nodash with
    | [] => 0
    | q :: qs => qs.foldl max q
  else parse_amount_nodash s

/-- The recognised-unit vocabulary of `parse_ingredient_string`. -/
def known_units : List (List Char) :=
  (["g", "kg", "mg", "ml", "l", "dl", "cl",
    "tsp", "tbsp", "cup", "cups", "oz", "lb", "lbs",
    "clove", "cloves", "piece", "pieces", "pinch",
    "bunch", "can", "cans", "slice", "slices",
    "sprig", "sprigs", "head", "heads", "stalk", "stalks",
    "handful", "dash", "drop", "drops", "packet", "packets",
    "sheet", "sheets", "stick", "sticks", "whole",
    "grams", "gram"] : List String).map String.toList

/-- Greedy `\d+`: the maximal nonempty digit prefix. -/
def matchDigits (l : List Char) : Option (List Char × List Char) :=
  let d := l.takeWhile Char.isDigit
  if d = [] then none else some (d, l.dropWhile Char.isDigit)

/-- Committed greedy `(?:[./]\d+)?`: when taken, the next pattern element
(`\s+` or `\s*-`) could not consume the `.`/`/` left behind by the empty
alternative, so no backtracking to the empty alternative is needed. -/
def matchFracOpt (l : List Char) : List Char × List Char :=
  match l with
  | c :: rest =>
    if (c = '.' || c = '/') && !(rest.takeWhile Char.isDigit).isEmpty then
      (c :: rest.takeWhile Char.isDigit, rest.dropWhile Char.isDigit)
    else ([], l)
  | [] => ([], l)

/-- `\d+(?:[./]\d+)?`. -/
def matchNum (l : List Char) : Option (List Char × List Char) :=
  match matchDigits l with
  | none => none
  | some (d, r) => some (d ++ (matchFracOpt r).1, (matchFracOpt r).2)

/-- The range tail `\s*-\s*\d+(?:[./]\d+)?` of the amount group, when it
matches at the head of `l` (each inner piece is deterministic: `\s*` is
committed by the mandatory `-` after it, `\d+` is maximal). -/
def matchRangeTail (l : List Char) : Option (List Char × List Char) :=
  match l.dropWhile pyIsSpace with
  | '-' :: r2 =>
    match matchNum (r2.dropWhile pyIsSpace) with
    | some (n, r4) =>
      some (l.takeWhile pyIsSpace ++ '-' :: (r2.takeWhile pyIsSpace ++ n), r4)
    | none => none
  | _ => none

/-- The amount group `(\d+(?:[./]\d+)?(?:\s*-\s*\d+(?:[./]\d+)?)?)` followed
by the rest of the pattern `k`, with the regex engine's backtracking: the
greedy range tail is tried first and dropped when the rest of the pattern
fails without it. -/
def matchAmtThen (l : List Char) (k : List Char → List Char → Option α) : Option α :=
  match matchNum l with
  | none => none
  | some (n, r) =>
    match matchRangeTail r with
    | some (rg, r2) => k (n ++ rg) r2 <|> k n r
    | none => k n r

/-- `(.+)$` at the head of `t` under Python semantics: `.` excludes `'\n'`
and `$` holds at the end of the string or before a single trailing newline. -/
def tryDotEnd (t : List Char) : Option (List Char) :=
  let run := t.takeWhile (fun c => c ≠ '\n')
  if run = [] then none
  else
    match t.drop run.length with
    | [] => some run
    | ['\n'] => some run
    | _ => none

/-- Backtracking search for `\s+(.+)$`: try `k` whitespace characters,
preferring the greedy (longest) count. -/
def spThenRest : Nat → List Char → Option (List Char)
  | 0, _ => none
  | k + 1, r => tryDotEnd (r.drop (k + 1)) <|> spThenRest k r

/-- `\s+(.+)$` at the head of `r`, returning the `(.+)` group. -/
def matchSpDotEnd (r : List Char) : Option (List Char) :=
  spThenRest (r.takeWhile pyIsSpace).length r

/-- `\s+([a-zA-Z]+(?:\s[a-zA-Z]+)?)\s+(.+)$` at the head of `r`, returning
the unit group and the food group.  The leading `\s+` and each `[a-zA-Z]+`
are committed (shrinking them leaves a character the next element cannot
match); the optional second word is greedy and backtracks to the one-word
form when the rest of the pattern fails. -/
def matchTail1 (r : List Char) : Option (List Char × List Char) :=
  let sp := (r.takeWhile pyIsSpace).length
  if sp = 0 then none
  else
    let r1 := r.drop sp
    let w1 := r1.takeWhile Char.isAlpha
    if w1 = [] then none
    else
      let r2 := r1.drop w1.length
      (match r2 with
       | c :: r3 =>
         if pyIsSpace c then
           let w2 := r3.takeWhile Char.isAlpha
           if w2 = [] then none
           else (matchSpDotEnd (r3.drop w2.length)).map (fun food => (w1 ++ c :: w2, food))
         else none
       | [] => none) <|>
      (matchSpDotEnd r2).map (fun food => (w1, food))

/-- The first ingredient regex of `parse_ingredient_string`:
`^(amount)\s+([a-zA-Z]+(?:\s[a-zA-Z]+)?)\s+(.+)$` → (amount, unit, food). -/
def matchR1 (s : List Char) : Option (List Char × List Char × List Char) :=
  matchAmtThen s (fun amt rest => (matchTail1 rest).map (fun p => (amt, p.1, p.2)))

/-- The second ingredient regex: `^(amount)\s+(.+)$` → (amount, food). -/
def matchR2 (s : List Char) : Option (List Char × List Char) :=
  matchAmtThen s (fun amt rest => (matchSpDotEnd rest).map (fun food => (amt, food)))

/-- Tandoor API ingredient, the return value of `parse_ingredient_string`. -/
structure Ingredient where
  amount : ℚ
  unit : Option (List Char)
  food : List Char
  note : List Char
  no_amount : Bool
deriving DecidableEq, Repr

/-- `parse_ingredient_string` from `pipeline.py`: strip, split off a note on
the first `", "`, then try the unit regex, the no-unit regex, and the
no-amount fallback, in that order. -/
def parse_ingredient_string (s0 : List Char) : Ingredient :=
  let s1 := pyStrip s0
  let core := match splitFirst (','  :: [' ']) s1 with
    | some p => p.1
    | none => s1
  let note := match splitFirst (',' :: [' ']) s1 with
    | some p => p.2
    | none => []
  match matchR1 core with
  | some (a, u, f) =>
    if pyLower u ∈ known_units then
      { amount := parse_amount a, unit := some u, food := pyStrip f, note := note, no_amount := false }
    else
      { amount := parse_amount a, unit := none, food := pyStrip (u ++ ' ' :: f), note := note, no_amount := false }
  | none =>
    match matchR2 core with
    | some (a, f) =>
      { amount := parse_amount a, unit := none, food := pyStrip f, note := note, no_amount := false }
    | none =>
      { amount := 0, unit := none, food := core, note := note, no_amount := true }

/-- The loop body of `_split_instruction_sections`: a stripped nonempty part
becomes `(first line stripped, remaining lines stripped)`. -/
def sectionOf (part : List Char) : Option (List Char × List Char) :=
  let p := pyStrip part
  if p = [] then none
  else
    match splitFirst ['\n'] p with
    | none => some (pyStrip p, [])
    | some lines => some (pyStrip lines.1, pyStrip lines.2)

/-- `_split_instruction_sections` from `pipeline.py`. -/
def split_instruction_sections (text : List Char) : List (List Char × List Char) :=
  if text = [] then []
  else
    let sections := (splitHH text).filterMap sectionOf
    if sections = [] && pyStrip text ≠ [] then [("Instructions".toList, pyStrip text)]
    else sections

/-- The value of the group of `re.search(r"(\d+)" ++ target, s)`: the
maximal digit run immediately before the first occurrence of `target` that
is preceded by at least one digit.  `run` accumulates the digits read since
the last non-digit character. -/
def searchNumBefore (target : Char) : List Char → List Char → Option Nat
  | _run, [] => none
  | run, c :: rest =>
    if c.isDigit then searchNumBefore target (run ++ [c]) rest
    else if c = target && run ≠ [] then some (digitsToNat run)
    else searchNumBefore target [] rest

/-- `parse_iso_duration_minutes` from `pipeline.py`. -/
def parse_iso_duration_minutes (iso : List Char) : Nat :=
  if iso = [] then 0
  else (searchNumBefore 'H' [] iso).getD 0 * 60 + (searchNumBefore 'M' [] iso).getD 0

/-- Round-half-to-even on ℚ, the rounding rule of Python `round`. -/
def rndHalfEven (q : ℚ) : ℤ :=
  if q - ⌊q⌋ < 1 / 2 then ⌊q⌋
  else if 1 / 2 < q - ⌊q⌋ then ⌊q⌋ + 1
  else if 2 ∣ ⌊q⌋ then ⌊q⌋ else ⌊q⌋ + 1

/-- Python `round(x, 2)` under exact decimal semantics. -/
def round2 (q : ℚ) : ℚ := (rndHalfEven (q * 100) : ℚ) / 100

/-- The schema.org JSON-LD recipe produced by the LLM extractor, with each
field already read through the `recipe.get(...)` accesses in
`jsonld_to_tandoor` / `process_video`: `name` keeps its optionality because
the two call sites use different defaults; `instructionText` is
`recipeInstructions[0]["text"]` (empty when the instruction list is empty);
`recipeYield` is `str(recipe.get("recipeYield", "4"))`; `author_name` is the
author's name field (or the `str()` of a non-dict author). -/
structure StructuredRecipe where
  name : Option (List Char)
  description : List Char
  author_name : List Char
  url : List Char
  recipeYield : List Char
  prepTime : List Char
  cookTime : List Char
  recipeIngredient : List (List Char)
  instructionText : List Char
  keywords : List (List Char)
  recipeCuisine : List Char
  recipeCategory : List Char
deriving DecidableEq, Repr, Inhabited

/-- One step of the Tandoor-native recipe body. -/
structure TandoorStep where
  name : List Char
  instruction : List Char
  ingredients : List Ingredient
  show_ingredients_table : Bool
deriving DecidableEq, Repr

/-- The Tandoor-native recipe body built by `jsonld_to_tandoor`. -/
structure TandoorRecipe where
  name : List Char
  description : List Char
  working_time : Nat
  waiting_time : Nat
  servings : Int
  servings_text : List Char
  source_url : List Char
  internal : Bool
  keywords : List (List Char)
  steps : List TandoorStep
deriving DecidableEq, Repr

/-- `original_servings` in `jsonld_to_tandoor`: the first digit run of the
yield string, defaulting to 4. -/
def originalServings (r : StructuredRecipe) : Nat := (firstNum r.recipeYield).getD 4

/-- The ingredient list of `jsonld_to_tandoor` after the optional rescale:
when the override is truthy (not `None`, not 0), the original servings are
positive and the override differs from them, every positive amount is
multiplied by `override / original` and rounded to two decimals. -/
def scaledIngredients (r : StructuredRecipe) (servings_override : Option Int) : List Ingredient :=
  let ingredients := r.recipeIngredient.map parse_ingredient_string
  let n := originalServings r
  match servings_override with
  | some m =>
    if m ≠ 0 ∧ 0 < n ∧ m ≠ (n : Int) then
      ingredients.map (fun ing =>
        if 0 < ing.amount then
          { ing with amount := round2 (ing.amount * ((m : ℚ) / (n : ℚ))) }
        else ing)
    else ingredients
  | none => ingredients

/-- `jsonld_to_tandoor` from `pipeline.py`. -/
def jsonld_to_tandoor (r : StructuredRecipe) (servings_override : Option Int) : TandoorRecipe :=
  let prep := parse_iso_duration_minutes r.prepTime
  let cook := parse_iso_duration_minutes r.cookTime
  let n := originalServings r
  let target : Int := match servings_override with
    | some m => if m ≠ 0 then m else (n : Int)
    | none => (n : Int)
  let kws := ((r.keywords.filter (fun k => pyStrip k ≠ [])).map pyStrip)
    ++ (if r.recipeCuisine ≠ [] ∧ pyStrip r.recipeCuisine ≠ [] then [pyStrip r.recipeCuisine] else [])
    ++ (if r.recipeCategory ≠ [] ∧ pyStrip r.recipeCategory ≠ [] then [pyStrip r.recipeCategory] else [])
  let desc :=
    if r.author_name ≠ [] ∧ occursB r.author_name r.description = false then
      if r.description ≠ [] then
        "By ".toList ++ r.author_name ++ ". ".toList ++ r.description
      else "By ".toList ++ r.author_name
    else r.description
  { name := r.name.getD ("Untitled Recipe".toList)
    description := desc
    working_time := prep
    waiting_time := cook
    servings := target
    servings_text := "servings".toList
    source_url := r.url
    internal := true
    keywords := kws
    steps :=
      { name := [], instruction := [], ingredients := scaledIngredients r servings_override,
        show_ingredients_table := true }
      :: (split_instruction_sections r.instructionText).map
          (fun s => { name := s.1, instruction := s.2, ingredients := [], show_ingredients_table := false }) }

/-- One record of the Tandoor search page inspected by `check_duplicate`
(`r.get("name", "")` and `r.get("id")`). -/
structure TandoorSearchHit where
  name : List Char
  id : Option Int
deriving DecidableEq, Repr

/-- The outcome of the duplicate-search HTTP request: a transport failure
(any raised exception) or a status code with the decoded result page. -/
inductive DupResponse where
  | transportError
  | http (status : Int) (results : List TandoorSearchHit)
deriving DecidableEq, Repr

/-- `check_duplicate` from `pipeline.py`: on HTTP 200, the id of the first
hit whose name matches after `strip().lower()`; `None` on anything else. -/
def check_duplicate (recipe_name : List Char) (resp : DupResponse) : Option Int :=
  match resp with
  | .transportError => none
  | .http status results =>
    if status = 200 then
      match results.find? (fun h => pyLower (pyStrip h.name) = pyLower (pyStrip recipe_name)) with
      | some h => h.id
      | none => none
    else none

/-- Shared state of the bot's job queue (`bot.py`): the pending jobs held by
the `asyncio.Queue` and the `_processing` flag set by the worker while a
dequeued job runs. -/
structure BotState where
  queue : List (List Char)
  processing : Bool
deriving DecidableEq, Repr

/-- `MAX_QUEUE` from `bot.py`. -/
def MAX_QUEUE : Nat := 3

/-- The reply `_enqueue` sends before (or instead of) admitting a job. -/
inductive EnqueueReply where
  | queueFull
  | position (n : Nat)
  | silent
deriving DecidableEq, Repr

/-- `_enqueue` from `bot.py`: reject when the queue is full; otherwise
report `qsize + 1` when the queue is non-empty or a job is processing, and
append the job. -/
def enqueue (st : BotState) (url : List Char) : EnqueueReply × BotState :=
  if MAX_QUEUE ≤ st.queue.length then (.queueFull, st)
  else
    let qsize := st.queue.length
    let reply := if 0 < qsize ∨ st.processing then .position (qsize + 1) else .silent
    (reply, { st with queue := st.queue ++ [url] })

/-- Exceptions observable inside `process_video`: the pipeline's own
`PipelineError` and every other exception (carried as its `str(e)` text). -/
inductive PyExc where
  | pipelineError (msg : List Char)
  | other (msg : List Char)
deriving DecidableEq, Repr

/-- Behaviour of the external downloader as observed by `download_audio`. -/
inductive DownloadOutcome where
  | ok (audioPath : List Char)
  | toolFail (stderr : List Char)
  | noAudioFile
  | raised (msg : List Char)
deriving DecidableEq, Repr

/-- Behaviour of the transcription engine as observed by `transcribe_audio`. -/
inductive TranscribeOutcome where
  | ok (text : List Char)
  | raised (msg : List Char)
deriving DecidableEq, Repr

/-- Behaviour of the LLM extractor as observed by `extract_recipe`. -/
inductive ExtractOutcome where
  | ok (recipe : StructuredRecipe)
  | cliFail (stderr : List Char)
  | badJson (err raw : List Char)
  | raised (msg : List Char)
deriving DecidableEq, Repr

/-- Behaviour of the publish target as observed by `publish_to_tandoor`. -/
inductive PublishOutcome where
  | created (id : Option Int)
  | httpError (status : Int) (detail : List Char)
  | raised (msg : List Char)
deriving DecidableEq, Repr

/-- One run's worth of collaborator behaviour: everything outside the
orchestrator's own control that `process_video` observes. -/
structure PipelineEnv where
  cached : Option (List Char)
  noCache : Bool
  download : DownloadOutcome
  transcribe : TranscribeOutcome
  extract : ExtractOutcome
  thumbnail : Option (List Char)
  publish : PublishOutcome
  tandoorUrl : List Char
deriving Repr

/-- `PipelineResult` from `pipeline.py` (the `recipe_data` dict is the
extracted structured recipe; empty-valued on failure). -/
structure PipelineResult where
  success : Bool
  recipe_name : List Char
  recipe_url : List Char
  thumbnail_path : List Char
  error_message : List Char
  recipe_data : StructuredRecipe
deriving DecidableEq, Repr

/-- An all-empty structured recipe, standing for the `{}` default of
`PipelineResult.recipe_data`. -/
def emptyRecipeData : StructuredRecipe :=
  { name := none, description := [], author_name := [], url := [], recipeYield := [],
    prepTime := [], cookTime := [], recipeIngredient := [], instructionText := [],
    keywords := [], recipeCuisine := [], recipeCategory := [] }

/-- `download_audio`: a non-zero exit raises `PipelineError` with the
tool's stripped stderr; a missing output file raises `PipelineError`; any
other exception propagates as-is. -/
def download_audio_model : DownloadOutcome → Except PyExc (List Char)
  | .ok p => .ok p
  | .toolFail stderr => .error (.pipelineError ("yt-dlp failed: ".toList ++ pyStrip stderr))
  | .noAudioFile => .error (.pipelineError ("No audio file found after download.".toList))
  | .raised m => .error (.other m)

/-- `transcribe_audio`: whisper failures propagate as raw exceptions. -/
def transcribe_audio_model : TranscribeOutcome → Except PyExc (List Char)
  | .ok t => .ok t
  | .raised m => .error (.other m)

/-- `extract_recipe`: a CLI failure or unparseable JSON raises
`PipelineError` with a descriptive prefix (the JSON message carries a
500-character excerpt of the raw response). -/
def extract_recipe_model : ExtractOutcome → Except PyExc StructuredRecipe
  | .ok r => .ok r
  | .cliFail stderr => .error (.pipelineError ("Claude Code error: ".toList ++ pyStrip stderr))
  | .badJson err raw =>
    .error (.pipelineError ("Invalid JSON from Claude: ".toList ++ err
      ++ ('\n' :: "Raw: ".toList) ++ raw.take 500))
  | .raised m => .error (.other m)

/-- `publish_to_tandoor`: a non-2xx response raises `PipelineError` (after
saving a local fallback); success yields the created id and the derived view
URL (a `None` id renders as the text `None`, as in the f-string). -/
def publish_to_tandoor_model (env : PipelineEnv) : Except PyExc (Option Int × List Char)
  :=
  match env.publish with
  | .created id =>
    let idStr := match id with
      | some n => (toString n).toList
      | none => "None".toList
    .ok (id, env.tandoorUrl ++ "/view/recipe/".toList ++ idStr)
  | .httpError status detail =>
    .error (.pipelineError ("Tandoor API error (HTTP ".toList ++ (toString status).toList
      ++ "): ".toList ++ detail))
  | .raised m => .error (.other m)

/-- The download-then-transcribe path of `process_video`: a download failure
short-circuits, otherwise the transcription outcome decides. -/
def dlThenTr (dl : DownloadOutcome) (tr : TranscribeOutcome) : Except PyExc (List Char) :=
  match download_audio_model dl with
  | .error e => .error e
  | .ok _audio => transcribe_audio_model tr

/-- The transcript acquisition phase of `process_video`, over the cached
transcript, the cache-bypass flag and the collaborator outcomes: a truthy
cached transcript is used unless bypassed, otherwise download then
transcribe. -/
def getTranscriptCore :
    Option (List Char) → Bool → DownloadOutcome → TranscribeOutcome → Except PyExc (List Char)
  | some t, noCache, dl, tr => if t ≠ [] ∧ noCache = false then .ok t else dlThenTr dl tr
  | none, _, dl, tr => dlThenTr dl tr

/-- The transcript acquisition phase of `process_video` on the environment. -/
def getTranscript (env : PipelineEnv) : Except PyExc (List Char) :=
  getTranscriptCore env.cached env.noCache env.download env.transcribe

/-- The persistent thumbnail path (`/tmp/yt2t_thumb_<name>`), copied out of
the temporary directory when a thumbnail was downloaded. -/
def persistentThumb (env : PipelineEnv) : Option (List Char) :=
  env.thumbnail.map (fun p => "yt2t_thumb_".toList ++ p)

/-- The `try:` body of `process_video`: the four stages in sequence, any
raised exception short-circuiting to the handler. -/
def process_video_inner (env : PipelineEnv) : Except PyExc PipelineResult :=
  match getTranscript env with
  | .error e => .error e
  | .ok _transcript =>
    match extract_recipe_model env.extract with
    | .error e => .error e
    | .ok recipe =>
      match publish_to_tandoor_model env with
      | .error e => .error e
      | .ok pub =>
        .ok { success := true
              recipe_name := recipe.name.getD ("Unknown".toList)
              recipe_url := pub.2
              thumbnail_path := (persistentThumb env).getD []
              error_message := []
              recipe_data := recipe }

/-- `process_video` from `pipeline.py`: the orchestration boundary converts
a `PipelineError` into a failure result with its message, and every other
exception into a failure result prefixed `Unexpected error: `. -/
def process_video (env : PipelineEnv) : PipelineResult :=
  match process_video_inner env with
  | .ok r => r
  | .error (.pipelineError m) =>
    { success := false, recipe_name := [], recipe_url := [], thumbnail_path := [],
      error_message := m, recipe_data := emptyRecipeData }
  | .error (.other m) =>
    { success := false, recipe_name := [], recipe_url := [], thumbnail_path := [],
      error_message := "Unexpected error: ".toList ++ m, recipe_data := emptyRecipeData }

/-- The ingredient amounts carried by the first step of a converted
recipe. -/
def firstStepAmounts (t : TandoorRecipe) : List ℚ :=
  match t.steps with
  | [] => []
  | s :: _ => s.ingredients.map Ingredient.amount

/-! ### Helper lemmas about the string primitives -/

theorem dropWhile_append_of_eq (p : Char → Bool) (a b : List Char)
    (h : a.dropWhile p = []) : (a ++ b).dropWhile p = b.dropWhile p := by
  induction a with
  | nil => simp
  | cons c t ih =>
    by_cases hc : p c
    · simp only [List.dropWhile_cons, hc, if_true] at h ⊢
      simp only [List.cons_append, List.dropWhile_cons, hc, if_true]
      exact ih h
    · simp [List.dropWhile_cons, hc] at h

theorem dropWhile_append_of_ne (p : Char → Bool) (a b : List Char)
    (h : a.dropWhile p ≠ []) : (a ++ b).dropWhile p = a.dropWhile p ++ b := by
  induction a with
  | nil => simp at h
  | cons c t ih =>
    by_cases hc : p c
    · simp only [List.dropWhile_cons, hc, if_true] at h ⊢
      simp only [List.cons_append, List.dropWhile_cons, hc, if_true]
      exact ih h
    · simp [List.dropWhile_cons, hc]

theorem dropWhile_append_not (p : Char → Bool) (a : List Char) (c : Char) (b : List Char)
    (hc : p c = false) : (a ++ c :: b).dropWhile p = a.dropWhile p ++ c :: b := by
  by_cases h : a.dropWhile p = []
  · rw [dropWhile_append_of_eq p a (c :: b) h, h]
    simp [List.dropWhile_cons, hc]
  · exact dropWhile_append_of_ne p a (c :: b) h

theorem dropWhile_idem (p : Char → Bool) (l : List Char) :
    (l.dropWhile p).dropWhile p = l.dropWhile p := by
  induction l with
  | nil => rfl
  | cons c t ih =>
    by_cases hc : p c
    · simpa [List.dropWhile_cons, hc] using ih
    · simp [List.dropWhile_cons, hc]

theorem pyStripL_append_not (a : List Char) (c : Char) (b : List Char)
    (hc : pyIsSpace c = false) : pyStripL (a ++ c :: b) = pyStripL a ++ c :: b :=
  dropWhile_append_not pyIsSpace a c b hc

theorem pyStripR_append_not (a : List Char) (c : Char) (b : List Char)
    (hc : pyIsSpace c = false) : pyStripR (a ++ c :: b) = a ++ c :: pyStripR b := by
  unfold pyStripR
  rw [show (a ++ c :: b).reverse = b.reverse ++ c :: a.reverse by simp,
    dropWhile_append_not pyIsSpace b.reverse c a.reverse hc]
  simp

theorem pyStripL_idem (l : List Char) : pyStripL (pyStripL l) = pyStripL l :=
  dropWhile_idem pyIsSpace l

theorem pyStripR_idem (l : List Char) : pyStripR (pyStripR l) = pyStripR l := by
  unfold pyStripR
  rw [List.reverse_reverse, dropWhile_idem]

theorem pyStrip_append_not (a : List Char) (c : Char) (b : List Char)
    (hc : pyIsSpace c = false) : pyStrip (a ++ c :: b) = pyStripL a ++ c :: pyStripR b := by
  unfold pyStrip
  rw [pyStripL_append_not a c b hc, pyStripR_append_not (pyStripL a) c b hc]

theorem pyStripR_cons (c : Char) (t : List Char) :
    pyStripR (c :: t) =
      if pyStripR t = [] then (if pyIsSpace c then [] else [c]) else c :: pyStripR t := by
  unfold pyStripR
  by_cases h : t.reverse.dropWhile pyIsSpace = []
  · rw [List.reverse_cons, dropWhile_append_of_eq pyIsSpace t.reverse [c] h]
    simp only [h, List.reverse_nil, if_true]
    by_cases hc : pyIsSpace c <;> simp [List.dropWhile_cons, hc]
  · rw [List.reverse_cons, dropWhile_append_of_ne pyIsSpace t.reverse [c] h]
    have : ¬ (t.reverse.dropWhile pyIsSpace).reverse = [] := by simpa using h
    simp [this]

theorem pyStripL_stripR_comm (l : List Char) :
    pyStripL (pyStripR l) = pyStripR (pyStripL l) := by
  induction l with
  | nil => rfl
  | cons c t ih =>
    rw [pyStripR_cons]
    by_cases hc : pyIsSpace c
    · have hL : pyStripL (c :: t) = pyStripL t := by
        simp [pyStripL, List.dropWhile_cons, hc]
      by_cases h : pyStripR t = []
      · rw [if_pos h, if_pos hc, hL, ← ih, h]
      · rw [if_neg h, hL, ← ih]
        simp [pyStripL, List.dropWhile_cons, hc]
    · have hL : pyStripL (c :: t) = c :: t := by
        simp [pyStripL, List.dropWhile_cons, hc]
      rw [hL, pyStripR_cons]
      by_cases h : pyStripR t = []
      · rw [if_pos h]
        simp [pyStripL, List.dropWhile_cons, hc]
      · rw [if_neg h]
        simp [pyStripL, List.dropWhile_cons, hc]

theorem pyStrip_stripL (l : List Char) : pyStrip (pyStripL l) = pyStrip l := by
  unfold pyStrip
  rw [pyStripL_idem]

theorem pyStrip_stripR (l : List Char) : pyStrip (pyStripR l) = pyStrip l := by
  unfold pyStrip
  rw [pyStripL_stripR_comm, pyStripR_idem]

theorem pyStrip_idem (l : List Char) : pyStrip (pyStrip l) = pyStrip l := by
  have h1 : pyStrip (pyStrip l) = pyStrip (pyStripL l) := by
    rw [show pyStrip l = pyStripR (pyStripL l) from rfl, pyStrip_stripR]
  rw [h1, pyStrip_stripL]

theorem pyStripL_sublist (l : List Char) : List.Sublist (pyStripL l) l :=
  List.dropWhile_sublist pyIsSpace

theorem pyStripR_sublist (l : List Char) : List.Sublist (pyStripR l) l := by
  have h0 : List.Sublist (l.reverse.dropWhile pyIsSpace) l.reverse :=
    List.dropWhile_sublist pyIsSpace
  have h := h0.reverse
  simpa [pyStripR] using h

theorem pyStrip_sublist (l : List Char) : List.Sublist (pyStrip l) l :=
  ((pyStripR_sublist (pyStripL l)).trans (pyStripL_sublist l))

theorem mem_of_mem_pyStrip {c : Char} {l : List Char} (h : c ∈ pyStrip l) : c ∈ l :=
  (pyStrip_sublist l).mem h

theorem mem_of_mem_pyStripL {c : Char} {l : List Char} (h : c ∈ pyStripL l) : c ∈ l :=
  (pyStripL_sublist l).mem h

theorem mem_of_mem_pyStripR {c : Char} {l : List Char} (h : c ∈ pyStripR l) : c ∈ l :=
  (pyStripR_sublist l).mem h

theorem splitOnChar_of_not_mem {sep : Char} {l : List Char} (h : sep ∉ l) :
    splitOnChar sep l = [l] := by
  induction l with
  | nil => rfl
  | cons c t ih =>
    have hc : ¬ c = sep := fun he => h (he ▸ List.mem_cons_self c t)
    have ht : sep ∉ t := fun hm => h (List.mem_cons_of_mem c hm)
    simp [splitOnChar, hc, ih ht]

theorem splitOnChar_append {sep : Char} {a b : List Char} (h : sep ∉ a) :
    splitOnChar sep (a ++ sep :: b) = a :: splitOnChar sep b := by
  induction a with
  | nil => simp [splitOnChar]
  | cons c t ih =>
    have hc : ¬ c = sep := fun he => h (he ▸ List.mem_cons_self c t)
    have ht : sep ∉ t := fun hm => h (List.mem_cons_of_mem c hm)
    simp [splitOnChar, hc, ih ht]

theorem le_foldl_max (q : ℚ) (l : List ℚ) : q ≤ l.foldl max q := by
  induction l generalizing q with
  | nil => exact le_refl q
  | cons x xs ih =>
    rw [List.foldl_cons]
    exact le_trans (le_max_left q x) (ih (max q x))

theorem pyFloat?_strip_congr {x y : List Char} (h : pyStrip x = pyStrip y) :
    pyFloat? x = pyFloat? y := by
  simp only [pyFloat?]
  rw [h]

theorem pyFloat?_nonneg {l : List Char} {q : ℚ} (h : pyFloat? l = some q) : 0 ≤ q := by
  simp only [pyFloat?] at h
  split at h
  · split at h
    · exact absurd h (by simp)
    · simp only [Option.some.injEq] at h
      rw [← h]
      positivity
  · split at h
    · simp only [Option.some.injEq] at h
      rw [← h]
      positivity
    · exact absurd h (by simp)
  · exact absurd h (by simp)

theorem parse_amount_nodash_strip_congr {x y : List Char} (h : pyStrip x = pyStrip y) :
    parse_amount_nodash x = parse_amount_nodash y := by
  simp only [parse_amount_nodash]
  rw [h]

theorem parse_amount_nodash_nonneg (l : List Char) : 0 ≤ parse_amount_nodash l := by
  simp only [parse_amount_nodash]
  split
  · split
    · rename_i num den _heq
      cases hn : pyFloat? num with
      | none => simp
      | some a =>
        cases hd : pyFloat? den with
        | none => simp [hn]
        | some b =>
          simp only [hn, hd]
          split
          · exact le_refl 0
          · exact div_nonneg (pyFloat?_nonneg hn) (pyFloat?_nonneg hd)
    · exact le_refl 0
  · cases hf : pyFloat? (pyStrip l) with
    | none => simp [hf]
    | some a =>
      simp only [hf, Option.getD_some]
      exact pyFloat?_nonneg hf

theorem parse_amount_nonneg (l : List Char) : 0 ≤ parse_amount l := by
  simp only [parse_amount]
  split
  · split
    · exact le_refl 0
    · rename_i q qs heq
      have hq : 0 ≤ q := by
        cases hsp : splitOnChar '-' (pyStrip l) with
        | nil => rw [hsp] at heq; exact absurd heq (by simp)
        | cons p ps =>
          rw [hsp] at heq
          simp only [List.map_cons, List.cons.injEq] at heq
          rw [← heq.1]
          exact parse_amount_nodash_nonneg p
      exact le_trans hq (le_foldl_max q qs)
  · exact parse_amount_nodash_nonneg (pyStrip l)

theorem splitHH_no_marker {l : List Char} (h : occursB ('#' :: '#' :: [' ']) l = false) :
    splitHH l = [l] := by
  induction l with
  | nil => rfl
  | cons c t ih =>
    simp only [occursB, Bool.or_eq_false_iff] at h
    have ht := ih h.2
    rw [splitHH.eq_def]
    split
    · rename_i rest heq
      exfalso
      have h1 := h.1
      rw [heq] at h1
      simp [List.isPrefixOf] at h1
    · rename_i c2 rest heq
      injection heq with hc hrest
      subst hc
      subst hrest
      rw [ht]
    · rename_i heq
      exact absurd heq (by simp)

/-! ### C1: instruction sectioning -/

/-- C1 counterexample: for the non-empty marker-free text `"hello"`,
`_split_instruction_sections` returns `[("hello", "")]` — the header is the
first line of the text — not the synthetic `[("Instructions", "hello")]`
section the claim asserts. -/
theorem C1_counterexample :
    split_instruction_sections ("hello".toList) = [("hello".toList, ([] : List Char))] ∧
    split_instruction_sections ("hello".toList) ≠ [("Instructions".toList, "hello".toList)] := by
  constructor
  · decide
  · decide

/-- C1 (amended): `_split_instruction_sections` splits on the `"## "` marker
into (header, body) pairs in source order, dropping empty segments — for
`"## A\nbody1\n\n## B\nbody2"` it returns `[("A","body1"), ("B","body2")]`.
For non-empty text containing no `"## "` marker it returns one section whose
header is the first line and whose body is the remaining lines (stripped),
e.g. `[("hello", "world again")]`; the synthetic `("Instructions", trimmed
text)` section arises only when every split segment is blank while the text
itself is not, as for the text `"## "`. -/
theorem C1_section_split :
    (split_instruction_sections ("## A\nbody1\n\n## B\nbody2".toList)
      = [("A".toList, "body1".toList), ("B".toList, "body2".toList)])
  ∧ (∀ text : List Char, occursB ('#' :: '#' :: [' ']) text = false → pyStrip text ≠ [] →
      split_instruction_sections text = (sectionOf text).toList)
  ∧ (split_instruction_sections ("hello\nworld again".toList)
      = [("hello".toList, "world again".toList)])
  ∧ (split_instruction_sections ("## ".toList) = [("Instructions".toList, "##".toList)]) := by
  refine ⟨by decide, ?_, by decide, by decide⟩
  intro text hocc hne
  have htne : text ≠ [] := fun he => hne (by rw [he]; rfl)
  cases hs : sectionOf text with
  | none =>
    exfalso
    simp only [sectionOf] at hs
    rw [if_neg hne] at hs
    rcases hsf : splitFirst ['\n'] (pyStrip text) with _ | p <;> rw [hsf] at hs <;> simp at hs
  | some s =>
    simp [split_instruction_sections, htne, splitHH_no_marker hocc, hs, hne]

/-- C1 witness: the general marker-free clause of `C1_section_split`
evaluated at the text `"hello"`. -/
theorem C1_witness :
    occursB ('#' :: '#' :: [' ']) ("hello".toList) = false ∧
    pyStrip ("hello".toList) ≠ [] ∧
    split_instruction_sections ("hello".toList) = (sectionOf ("hello".toList)).toList :=
  ⟨by decide, by decide, C1_section_split.2.1 ("hello".toList) (by decide) (by decide)⟩

/-! ### C2: queue admission -/

/-- C2 counterexample: submitting the 2nd job while the 1st is processing
(the 1st has been dequeued, so the queue is empty and `_processing` is set)
reports position 1, not position 2 as the claim asserts. -/
theorem C2_counterexample :
    enqueue { queue := [], processing := true } ("u".toList)
      = (EnqueueReply.position 1, { queue := ["u".toList], processing := true }) ∧
    EnqueueReply.position 1 ≠ EnqueueReply.position 2 := by
  constructor
  · decide
  · decide

/-- C2 (amended): submitting a job when the queue already holds its full
capacity of `MAX_QUEUE = 3` pending jobs is rejected with a queue-full
message and the state is unchanged; otherwise, when the queue is non-empty
or a job is currently executing, the caller is told position `qsize + 1` —
their 1-indexed position within the pending queue, which does not count the
job already executing — and the job is appended.  In particular, submitting
the 2nd job while the 1st is processing reports position 1. -/
theorem C2_queue_admission :
    (∀ (st : BotState) (u : List Char), MAX_QUEUE ≤ st.queue.length →
       enqueue st u = (.queueFull, st))
  ∧ (∀ (st : BotState) (u : List Char), st.queue.length < MAX_QUEUE →
       (0 < st.queue.length ∨ st.processing = true) →
       enqueue st u = (.position (st.queue.length + 1),
         { queue := st.queue ++ [u], processing := st.processing })) := by
  constructor
  · intro st u h
    simp [enqueue, h]
  · intro st u h1 h2
    have hn : ¬ MAX_QUEUE ≤ st.queue.length := Nat.not_le.mpr h1
    simp [enqueue, hn, h2]

/-- C2 witness: a full queue of 3 rejects the 4th job, and the 2nd job
submitted while the 1st is processing is reported at position 1. -/
theorem C2_witness :
    (enqueue { queue := ["a".toList, "b".toList, "c".toList], processing := false } ("d".toList)
       = (.queueFull, { queue := ["a".toList, "b".toList, "c".toList], processing := false }))
  ∧ (enqueue { queue := [], processing := true } ("u".toList)
       = (.position 1, { queue := ["u".toList], processing := true })) :=
  ⟨C2_queue_admission.1 _ _ (by decide), C2_queue_admission.2 _ _ (by decide) (by decide)⟩

/-! ### C7: step-list invariant -/

/-- C7: for every structured recipe and override, the converted step list
consists of a first step carrying the full (possibly rescaled) parsed
ingredient list with an empty instruction body and the ingredient table
enabled, followed by one step per markdown-split instruction section in
source order, each with zero ingredients; with no override the first step's
ingredients are exactly the parsed ingredient lines. -/
theorem C7_step_invariant :
    (∀ (r : StructuredRecipe) (o : Option Int),
       (jsonld_to_tandoor r o).steps =
         { name := [], instruction := [], ingredients := scaledIngredients r o,
           show_ingredients_table := true }
         :: (split_instruction_sections r.instructionText).map
             (fun s => { name := s.1, instruction := s.2, ingredients := [],
                          show_ingredients_table := false }))
  ∧ (∀ r : StructuredRecipe,
       scaledIngredients r none = r.recipeIngredient.map parse_ingredient_string) :=
  ⟨fun _ _ => rfl, fun _ => rfl⟩

/-! ### C10: zero override behaves as no override -/

/-- C10: converting with `servingsOverride = 0` produces exactly the same
normalized recipe as converting with no override: 0 is falsy both in the
target-servings resolution and in the rescaling guard. -/
theorem C10_zero_override (r : StructuredRecipe) :
    jsonld_to_tandoor r (some 0) = jsonld_to_tandoor r none := by
  simp [jsonld_to_tandoor, scaledIngredients]

/-! ### C8: duplicate detection -/

theorem find?_append_none {α : Type} {p : α → Bool} {pre l : List α}
    (h : ∀ x ∈ pre, p x = false) : (pre ++ l).find? p = l.find? p := by
  induction pre with
  | nil => rfl
  | cons a t ih =>
    have ha := h a (List.mem_cons_self a t)
    rw [List.cons_append, List.find?_cons_of_neg _ (by simp [ha]), ih]
    intro x hx
    exact h x (List.mem_cons_of_mem a hx)

/-- C8: duplicate lookup returns the id of the first result whose name
matches the candidate after whitespace trimming and case folding — in
particular `"  Chicken Soup "` matches an existing `"chicken soup"` — and a
transport failure always yields no-duplicate-found instead of raising. -/
theorem C8_duplicate_detection :
    (∀ recipe_name : List Char, check_duplicate recipe_name .transportError = none)
  ∧ (check_duplicate ("  Chicken Soup ".toList)
       (.http 200 [{ name := "chicken soup".toList, id := some 7 }]) = some 7)
  ∧ (∀ (recipe_name : List Char) (pre post : List TandoorSearchHit) (h : TandoorSearchHit),
       (∀ x ∈ pre, pyLower (pyStrip x.name) ≠ pyLower (pyStrip recipe_name)) →
       pyLower (pyStrip h.name) = pyLower (pyStrip recipe_name) →
       check_duplicate recipe_name (.http 200 (pre ++ h :: post)) = h.id) := by
  refine ⟨fun _ => rfl, by decide, ?_⟩
  intro nm pre post h hpre hh
  have hfind : (pre ++ h :: post).find?
      (fun x => pyLower (pyStrip x.name) = pyLower (pyStrip nm)) = some h := by
    rw [find?_append_none (fun x hx => by simp [hpre x hx]),
      List.find?_cons_of_pos _ (by simp [hh])]
  simp [check_duplicate, hfind]

/-- C8 witness: the first-match clause evaluated at a concrete page whose
first entry does not match and whose second does. -/
theorem C8_witness :
    (∀ x ∈ [({ name := "beef stew".toList, id := some 3 } : TandoorSearchHit)],
       pyLower (pyStrip x.name) ≠ pyLower (pyStrip ("  Chicken Soup ".toList)))
  ∧ pyLower (pyStrip (("chicken soup".toList : List Char)))
      = pyLower (pyStrip ("  Chicken Soup ".toList))
  ∧ check_duplicate ("  Chicken Soup ".toList)
      (.http 200 ([{ name := "beef stew".toList, id := some 3 }]
        ++ { name := "chicken soup".toList, id := some 7 } :: []))
      = some 7 :=
  ⟨by decide, by decide,
    C8_duplicate_detection.2.2 ("  Chicken Soup ".toList)
      [{ name := "beef stew".toList, id := some 3 }] []
      { name := "chicken soup".toList, id := some 7 } (by decide) (by decide)⟩

/-! ### C9: the orchestrator never lets an exception escape -/

theorem strPrefix_ne_nil (s : String) (b : List Char) (hs : s.toList ≠ []) :
    s.toList ++ b ≠ [] := by
  intro hc
  exact hs (List.append_eq_nil.mp hc).1

theorem download_pe_msg {d : DownloadOutcome} {m : List Char}
    (h : download_audio_model d = .error (.pipelineError m)) : m ≠ [] := by
  cases d with
  | ok p => simp [download_audio_model] at h
  | toolFail s =>
    simp only [download_audio_model, Except.error.injEq, PyExc.pipelineError.injEq] at h
    rw [← h]
    exact strPrefix_ne_nil _ _ (by decide)
  | noAudioFile =>
    simp only [download_audio_model, Except.error.injEq, PyExc.pipelineError.injEq] at h
    rw [← h]
    decide
  | raised m2 => simp [download_audio_model] at h

theorem extract_pe_msg {e : ExtractOutcome} {m : List Char}
    (h : extract_recipe_model e = .error (.pipelineError m)) : m ≠ [] := by
  cases e with
  | ok r => simp [extract_recipe_model] at h
  | cliFail s =>
    simp only [extract_recipe_model, Except.error.injEq, PyExc.pipelineError.injEq] at h
    rw [← h]
    exact strPrefix_ne_nil _ _ (by decide)
  | badJson err raw =>
    simp only [extract_recipe_model, Except.error.injEq, PyExc.pipelineError.injEq] at h
    rw [← h]
    have hA : "Invalid JSON from Claude: ".toList ≠ [] := by decide
    simp [List.append_eq_nil, hA]
  | raised m2 => simp [extract_recipe_model] at h

theorem publish_pe_msg {env : PipelineEnv} {m : List Char}
    (h : publish_to_tandoor_model env = .error (.pipelineError m)) : m ≠ [] := by
  unfold publish_to_tandoor_model at h
  cases hp : env.publish <;> rw [hp] at h
  · simp at h
  · simp only [Except.error.injEq, PyExc.pipelineError.injEq] at h
    rw [← h]
    have hA : "Tandoor API error (HTTP ".toList ≠ [] := by decide
    simp [List.append_eq_nil, hA]
  · simp at h

theorem dlThenTr_pe_msg {dl : DownloadOutcome} {tr : TranscribeOutcome} {m : List Char}
    (h : dlThenTr dl tr = .error (.pipelineError m)) : m ≠ [] := by
  unfold dlThenTr at h
  cases hd : download_audio_model dl <;> rw [hd] at h
  · rename_i e
    simp at h
    subst h
    exact download_pe_msg hd
  · cases tr <;> simp [transcribe_audio_model] at h

theorem getTranscript_pe_msg {env : PipelineEnv} {m : List Char}
    (h : getTranscript env = .error (.pipelineError m)) : m ≠ [] := by
  unfold getTranscript at h
  cases hc : env.cached <;> rw [hc] at h
  · simp only [getTranscriptCore] at h
    exact dlThenTr_pe_msg h
  · rename_i t
    simp only [getTranscriptCore] at h
    by_cases hcond : t ≠ [] ∧ env.noCache = false
    · rw [if_pos hcond] at h
      simp at h
    · rw [if_neg hcond] at h
      exact dlThenTr_pe_msg h

theorem inner_pe_msg {env : PipelineEnv} {m : List Char}
    (h : process_video_inner env = .error (.pipelineError m)) : m ≠ [] := by
  unfold process_video_inner at h
  cases hg : getTranscript env with
  | error e =>
    rw [hg] at h
    cases e with
    | pipelineError m2 =>
      simp only [Except.error.injEq, PyExc.pipelineError.injEq] at h
      rw [← h]
      exact getTranscript_pe_msg hg
    | other m2 => simp at h
  | ok t =>
    rw [hg] at h
    cases he : extract_recipe_model env.extract with
    | error e =>
      rw [he] at h
      cases e with
      | pipelineError m2 =>
        simp only [Except.error.injEq, PyExc.pipelineError.injEq] at h
        rw [← h]
        exact extract_pe_msg he
      | other m2 => simp at h
    | ok recipe =>
      rw [he] at h
      cases hp : publish_to_tandoor_model env with
      | error e =>
        rw [hp] at h
        cases e with
        | pipelineError m2 =>
          simp only [Except.error.injEq, PyExc.pipelineError.injEq] at h
          rw [← h]
          exact publish_pe_msg hp
        | other m2 => simp at h
      | ok pub =>
        rw [hp] at h
        simp at h

theorem inner_ok_success {env : PipelineEnv} {r : PipelineResult}
    (h : process_video_inner env = .ok r) : r.success = true := by
  unfold process_video_inner at h
  cases hg : getTranscript env <;> rw [hg] at h
  · simp at h
  · cases he : extract_recipe_model env.extract <;> rw [he] at h
    · simp at h
    · cases hp : publish_to_tandoor_model env <;> rw [hp] at h
      · simp at h
      · simp only [Except.ok.injEq] at h
        rw [← h]

/-- C9: for every behaviour of the external collaborators, including any
exception they raise, `process_video` returns a `PipelineResult` — with
`success = true` exactly when the run completed, and otherwise
`success = false` together with a non-empty error message. -/
theorem C9_orchestrator_boundary (env : PipelineEnv) :
    ((process_video env).success = true ∧ process_video_inner env = .ok (process_video env))
    ∨ ((process_video env).success = false ∧ (process_video env).error_message ≠ []) := by
  cases h : process_video_inner env with
  | ok r =>
    left
    have hpv : process_video env = r := by simp [process_video, h]
    constructor
    · rw [hpv]
      exact inner_ok_success h
    · rw [hpv]
  | error e =>
    right
    cases e with
    | pipelineError m =>
      have hpv : process_video env =
          { success := false, recipe_name := [], recipe_url := [], thumbnail_path := [],
            error_message := m, recipe_data := emptyRecipeData } := by
        simp [process_video, h]
      rw [hpv]
      exact ⟨rfl, inner_pe_msg h⟩
    | other m =>
      have hpv : process_video env =
          { success := false, recipe_name := [], recipe_url := [], thumbnail_path := [],
            error_message := "Unexpected error: ".toList ++ m,
            recipe_data := emptyRecipeData } := by
        simp [process_video, h]
      rw [hpv]
      exact ⟨rfl, strPrefix_ne_nil _ _ (by decide)⟩

/-! ### C5: quantity parsing -/

/-- C5: a range `a-b` parses to the maximum of its two parts; a fraction
`a/b` parses to `a/b` when the denominator is non-zero and to 0 when it is
zero; tokens with no range, no fraction and no parseable decimal yield 0;
and the returned quantity is non-negative for every input. -/
theorem C5_parse_amount :
    (∀ a b : List Char, '-' ∉ a → '-' ∉ b →
       parse_amount (a ++ '-' :: b) = max (parse_amount a) (parse_amount b))
  ∧ (∀ (a b : List Char) (qa qb : ℚ), '-' ∉ a → '-' ∉ b → '/' ∉ a → '/' ∉ b →
       pyFloat? a = some qa → pyFloat? b = some qb →
       parse_amount (a ++ '/' :: b) = if qb = 0 then 0 else qa / qb)
  ∧ (∀ s : List Char, '-' ∉ s → '/' ∉ s → pyFloat? s = none → parse_amount s = 0)
  ∧ (∀ s : List Char, 0 ≤ parse_amount s) := by
  refine ⟨?_, ?_, ?_, parse_amount_nonneg⟩
  · intro a b ha hb
    have hstrip : pyStrip (a ++ '-' :: b) = pyStripL a ++ '-' :: pyStripR b :=
      pyStrip_append_not a '-' b (by decide)
    have hmemLa : '-' ∉ pyStripL a := fun hm => ha (mem_of_mem_pyStripL hm)
    have hmemRb : '-' ∉ pyStripR b := fun hm => hb (mem_of_mem_pyStripR hm)
    have hsplit : splitOnChar '-' (pyStripL a ++ '-' :: pyStripR b)
        = [pyStripL a, pyStripR b] := by
      rw [splitOnChar_append hmemLa, splitOnChar_of_not_mem hmemRb]
    have hL : parse_amount (a ++ '-' :: b)
        = max (parse_amount_nodash (pyStripL a)) (parse_amount_nodash (pyStripR b)) := by
      simp only [parse_amount]
      rw [hstrip, if_pos (by simp : '-' ∈ pyStripL a ++ '-' :: pyStripR b), hsplit]
      simp
    have hRa : parse_amount a = parse_amount_nodash (pyStripL a) := by
      simp only [parse_amount]
      rw [if_neg (fun hm => ha (mem_of_mem_pyStrip hm))]
      exact parse_amount_nodash_strip_congr (by rw [pyStrip_idem, pyStrip_stripL])
    have hRb : parse_amount b = parse_amount_nodash (pyStripR b) := by
      simp only [parse_amount]
      rw [if_neg (fun hm => hb (mem_of_mem_pyStrip hm))]
      exact parse_amount_nodash_strip_congr (by rw [pyStrip_idem, pyStrip_stripR])
    rw [hL, hRa, hRb]
  · intro a b qa qb ha hb ha2 hb2 hfa hfb
    have hstrip : pyStrip (a ++ '/' :: b) = pyStripL a ++ '/' :: pyStripR b :=
      pyStrip_append_not a '/' b (by decide)
    have hnod : '-' ∉ pyStripL a ++ '/' :: pyStripR b := by
      intro hm
      rcases List.mem_append.mp hm with h1 | h2
      · exact ha (mem_of_mem_pyStripL h1)
      · rcases List.mem_cons.mp h2 with h3 | h4
        · exact absurd h3 (by decide)
        · exact hb (mem_of_mem_pyStripR h4)
    have hs2 : pyStrip (pyStripL a ++ '/' :: pyStripR b) = pyStripL a ++ '/' :: pyStripR b := by
      rw [← hstrip, pyStrip_idem, hstrip]
    simp only [parse_amount]
    rw [hstrip, if_neg hnod]
    simp only [parse_amount_nodash]
    rw [hs2, if_pos (by simp : '/' ∈ pyStripL a ++ '/' :: pyStripR b),
      splitOnChar_append (fun hm => ha2 (mem_of_mem_pyStripL hm)),
      splitOnChar_of_not_mem (fun hm => hb2 (mem_of_mem_pyStripR hm))]
    have hfa2 : pyFloat? (pyStripL a) = some qa := by
      rw [pyFloat?_strip_congr (pyStrip_stripL a), hfa]
    have hfb2 : pyFloat? (pyStripR b) = some qb := by
      rw [pyFloat?_strip_congr (pyStrip_stripR b), hfb]
    dsimp only
    rw [hfa2, hfb2]
  · intro s h1 h2 h3
    simp only [parse_amount]
    rw [if_neg (fun hm => h1 (mem_of_mem_pyStrip hm))]
    simp only [parse_amount_nodash]
    rw [pyStrip_idem, if_neg (fun hm => h2 (mem_of_mem_pyStrip hm)),
      pyFloat?_strip_congr (pyStrip_idem s), h3]
    rfl

/-- C5 witness: the range, fraction, zero-denominator and unparseable
clauses evaluated at concrete tokens. -/
theorem C5_witness :
    (parse_amount ("2".toList ++ '-' :: "3".toList)
       = max (parse_amount ("2".toList)) (parse_amount ("3".toList)))
  ∧ (parse_amount ("1".toList ++ '/' :: "2".toList) = if (2 : ℚ) = 0 then 0 else 1 / 2)
  ∧ (parse_amount ("1".toList ++ '/' :: "0".toList) = if (0 : ℚ) = 0 then 0 else 1 / 0)
  ∧ parse_amount ("abc".toList) = 0 :=
  ⟨C5_parse_amount.1 _ _ (by decide) (by decide),
   C5_parse_amount.2.1 _ _ 1 2 (by decide) (by decide) (by decide) (by decide)
     (by decide) (by decide),
   C5_parse_amount.2.1 _ _ 1 0 (by decide) (by decide) (by decide) (by decide)
     (by decide) (by decide),
   C5_parse_amount.2.2.1 _ (by decide) (by decide) (by decide)⟩

/-! ### C6: ISO-8601 duration parsing -/

theorem searchNumBefore_digits (t : Char) (run ds l : List Char)
    (hds : ∀ c ∈ ds, c.isDigit = true) :
    searchNumBefore t run (ds ++ l) = searchNumBefore t (run ++ ds) l := by
  induction ds generalizing run with
  | nil => simp
  | cons d ds' ih =>
    have hd := hds d (List.mem_cons_self d ds')
    rw [List.cons_append]
    simp only [searchNumBefore, hd, if_true]
    rw [ih (run ++ [d]) (fun c hc => hds c (List.mem_cons_of_mem d hc))]
    simp

theorem searchNumBefore_found (t : Char) {run : List Char} (l : List Char)
    (ht : t.isDigit = false) (hrun : run ≠ []) :
    searchNumBefore t run (t :: l) = some (digitsToNat run) := by
  simp [searchNumBefore, ht, hrun]

theorem searchNumBefore_skip {t c : Char} (run l : List Char)
    (hd : c.isDigit = false) (hne : c ≠ t) :
    searchNumBefore t run (c :: l) = searchNumBefore t [] l := by
  simp [searchNumBefore, hd, hne]

theorem searchNumBefore_no_digits {t : Char} {l : List Char}
    (h : ∀ c ∈ l, c.isDigit = false) : searchNumBefore t [] l = none := by
  induction l with
  | nil => rfl
  | cons c rest ih =>
    have hc := h c (List.mem_cons_self c rest)
    simp [searchNumBefore, hc, ih (fun x hx => h x (List.mem_cons_of_mem c hx))]

/-- C6: for ISO 8601 duration strings with integer hour and/or minute
components (`PT<h>H<m>M`, `PT<h>H`, `PT<m>M`), `parse_iso_duration_minutes`
returns `60*H + M` with a missing component contributing 0; the empty string
and digit-free (component-less) strings return 0 instead of failing. -/
theorem C6_parse_duration :
    (∀ hd md : List Char, hd ≠ [] → (∀ c ∈ hd, c.isDigit = true) →
       md ≠ [] → (∀ c ∈ md, c.isDigit = true) →
       parse_iso_duration_minutes ('P' :: 'T' :: (hd ++ 'H' :: (md ++ ['M'])))
         = 60 * digitsToNat hd + digitsToNat md)
  ∧ (∀ hd : List Char, hd ≠ [] → (∀ c ∈ hd, c.isDigit = true) →
       parse_iso_duration_minutes ('P' :: 'T' :: (hd ++ ['H'])) = 60 * digitsToNat hd)
  ∧ (∀ md : List Char, md ≠ [] → (∀ c ∈ md, c.isDigit = true) →
       parse_iso_duration_minutes ('P' :: 'T' :: (md ++ ['M'])) = digitsToNat md)
  ∧ (parse_iso_duration_minutes [] = 0)
  ∧ (∀ s : List Char, (∀ c ∈ s, c.isDigit = false) → parse_iso_duration_minutes s = 0) := by
  refine ⟨?_, ?_, ?_, rfl, ?_⟩
  · intro hd md hdne hds mdne mds
    have hH : searchNumBefore 'H' [] ('P' :: 'T' :: (hd ++ 'H' :: (md ++ ['M'])))
        = some (digitsToNat hd) := by
      rw [searchNumBefore_skip _ _ (by decide) (by decide),
        searchNumBefore_skip _ _ (by decide) (by decide),
        searchNumBefore_digits 'H' [] hd _ hds]
      simp only [List.nil_append]
      exact searchNumBefore_found 'H' _ (by decide) hdne
    have hM : searchNumBefore 'M' [] ('P' :: 'T' :: (hd ++ 'H' :: (md ++ ['M'])))
        = some (digitsToNat md) := by
      rw [searchNumBefore_skip _ _ (by decide) (by decide),
        searchNumBefore_skip _ _ (by decide) (by decide),
        searchNumBefore_digits 'M' [] hd _ hds,
        searchNumBefore_skip _ _ (by decide) (by decide),
        searchNumBefore_digits 'M' [] md _ mds]
      simp only [List.nil_append]
      exact searchNumBefore_found 'M' _ (by decide) mdne
    simp only [parse_iso_duration_minutes, hH, hM]
    rw [if_neg (by simp)]
    simp [Nat.mul_comm]
  · intro hd hdne hds
    have hH : searchNumBefore 'H' [] ('P' :: 'T' :: (hd ++ ['H']))
        = some (digitsToNat hd) := by
      rw [searchNumBefore_skip _ _ (by decide) (by decide),
        searchNumBefore_skip _ _ (by decide) (by decide),
        searchNumBefore_digits 'H' [] hd _ hds]
      simp only [List.nil_append]
      exact searchNumBefore_found 'H' _ (by decide) hdne
    have hM : searchNumBefore 'M' [] ('P' :: 'T' :: (hd ++ ['H'])) = none := by
      rw [searchNumBefore_skip _ _ (by decide) (by decide),
        searchNumBefore_skip _ _ (by decide) (by decide),
        searchNumBefore_digits 'M' [] hd _ hds,
        searchNumBefore_skip _ _ (by decide) (by decide)]
      rfl
    simp only [parse_iso_duration_minutes, hH, hM]
    rw [if_neg (by simp)]
    simp [Nat.mul_comm]
  · intro md mdne mds
    have hH : searchNumBefore 'H' [] ('P' :: 'T' :: (md ++ ['M'])) = none := by
      rw [searchNumBefore_skip _ _ (by decide) (by decide),
        searchNumBefore_skip _ _ (by decide) (by decide),
        searchNumBefore_digits 'H' [] md _ mds,
        searchNumBefore_skip _ _ (by decide) (by decide)]
      rfl
    have hM : searchNumBefore 'M' [] ('P' :: 'T' :: (md ++ ['M']))
        = some (digitsToNat md) := by
      rw [searchNumBefore_skip _ _ (by decide) (by decide),
        searchNumBefore_skip _ _ (by decide) (by decide),
        searchNumBefore_digits 'M' [] md _ mds]
      simp only [List.nil_append]
      exact searchNumBefore_found 'M' _ (by decide) mdne
    simp only [parse_iso_duration_minutes, hH, hM]
    rw [if_neg (by simp)]
    simp
  · intro s h
    by_cases hnil : s = []
    · simp [hnil, parse_iso_duration_minutes]
    · simp [parse_iso_duration_minutes, hnil, searchNumBefore_no_digits h]

/-- C6 witness: the three duration shapes evaluated at `PT1H30M`, `PT2H`
and `PT45M`. -/
theorem C6_witness :
    parse_iso_duration_minutes ("PT1H30M".toList) = 90
    ∧ parse_iso_duration_minutes ("PT2H".toList) = 120
    ∧ parse_iso_duration_minutes ("PT45M".toList) = 45 := by
  refine ⟨?_, ?_, ?_⟩
  · exact C6_parse_duration.1 ['1'] ['3', '0'] (by decide) (by decide) (by decide) (by decide)
  · exact C6_parse_duration.2.1 ['2'] (by decide) (by decide)
  · exact C6_parse_duration.2.2.1 ['4', '5'] (by decide) (by decide)

/-! ### C4: serving rescaling -/

/-- C4: converting with an override equal to the resolved original servings
leaves the entire converted recipe — in particular every ingredient
quantity — unchanged; and when the override is `k` times the original
(`k ≠ 1`, positive original), every positive ingredient quantity is
multiplied by `k` and rounded to two decimals while zero quantities are
left untouched. -/
theorem C4_rescaling :
    (∀ r : StructuredRecipe,
       jsonld_to_tandoor r (some (originalServings r : Int)) = jsonld_to_tandoor r none)
  ∧ (∀ (r : StructuredRecipe) (m : ℤ) (k : ℚ), 0 < originalServings r → m ≠ 0 →
       m ≠ (originalServings r : Int) → (m : ℚ) = k * (originalServings r : ℚ) →
       firstStepAmounts (jsonld_to_tandoor r (some m))
         = (firstStepAmounts (jsonld_to_tandoor r none)).map
             (fun a => if 0 < a then round2 (a * k) else a)) := by
  constructor
  · intro r
    simp [jsonld_to_tandoor, scaledIngredients]
  · intro r m k hpos hm0 hmne hk
    have hn0 : ((originalServings r : ℚ)) ≠ 0 := by
      exact_mod_cast hpos.ne'
    have hscale : (m : ℚ) / (originalServings r : ℚ) = k := by
      rw [hk]
      field_simp
    have h1 : firstStepAmounts (jsonld_to_tandoor r (some m))
        = (scaledIngredients r (some m)).map Ingredient.amount := rfl
    have h2 : firstStepAmounts (jsonld_to_tandoor r none)
        = (scaledIngredients r none).map Ingredient.amount := rfl
    rw [h1, h2]
    simp only [scaledIngredients]
    rw [if_pos ⟨hm0, hpos, hmne⟩]
    simp only [List.map_map]
    apply List.map_congr_left
    intro x _
    simp only [Function.comp_apply]
    by_cases hA : 0 < (parse_ingredient_string x).amount
    · rw [if_pos hA]
      simp [hA, hscale]
    · rw [if_neg hA]
      simp [hA]

/-- C4 witness: the linearity clause at a recipe yielding 2 servings with a
single `1 g salt` ingredient, doubled to 4 servings. -/
theorem C4_witness :
    (0 < originalServings
        { name := none, description := [], author_name := [], url := [],
          recipeYield := "2".toList, prepTime := [], cookTime := [],
          recipeIngredient := ["1 g salt".toList], instructionText := [],
          keywords := [], recipeCuisine := [], recipeCategory := [] })
  ∧ firstStepAmounts (jsonld_to_tandoor
        { name := none, description := [], author_name := [], url := [],
          recipeYield := "2".toList, prepTime := [], cookTime := [],
          recipeIngredient := ["1 g salt".toList], instructionText := [],
          keywords := [], recipeCuisine := [], recipeCategory := [] } (some 4))
      = (firstStepAmounts (jsonld_to_tandoor
          { name := none, description := [], author_name := [], url := [],
            recipeYield := "2".toList, prepTime := [], cookTime := [],
            recipeIngredient := ["1 g salt".toList], instructionText := [],
            keywords := [], recipeCuisine := [], recipeCategory := [] } none)).map
          (fun a => if 0 < a then round2 (a * 2) else a) :=
  ⟨by decide,
   C4_rescaling.2
     { name := none, description := [], author_name := [], url := [],
       recipeYield := "2".toList, prepTime := [], cookTime := [],
       recipeIngredient := ["1 g salt".toList], instructionText := [],
       keywords := [], recipeCuisine := [], recipeCategory := [] }
     4 2 (by decide) (by decide) (by decide)
     (by
       have h : originalServings
           { name := none, description := [], author_name := [], url := [],
             recipeYield := "2".toList, prepTime := [], cookTime := [],
             recipeIngredient := ["1 g salt".toList], instructionText := [],
             keywords := [], recipeCuisine := [], recipeCategory := [] } = 2 := by decide
       rw [h]
       norm_num)⟩

/-! ### C3: ingredient-line parsing -/

